import Mathlib

/-!
Verification of the snake-game simulation core (src/script.js).

The simulation state machine, the fixed-step driver and the particle
integrator are embedded as pure Lean functions over `Int` grid positions
and `ℚ` continuous quantities.  `Math.random()` is abstracted by oracle
streams: `foodRnd` yields the successive sampled grid cells of
`placeFood`, and `partRnd` yields the sampled velocity/lifetime/size
tuples of each spawned particle.  Burst counts, burst origins and all
state updates are taken verbatim from the source.
-/

namespace Snake

/-- A grid position, the JS object `{x, y}` of integer cell coordinates. -/
@[ext]
structure Pos where
  x : Int
  y : Int
deriving DecidableEq, Repr

/-- A particle: continuous position, velocity, remaining lifetime, size
(src/script.js lines 148-155). -/
@[ext]
structure Particle where
  x : ℚ
  y : ℚ
  vx : ℚ
  vy : ℚ
  life : ℚ
  size : ℕ
deriving DecidableEq, Repr

/-- One sampled particle-initialisation tuple: stands for the values the
source draws with `Math.random()` in `spawnEatParticles` (velocity from a
random angle and speed, lifetime, size). -/
structure PSample where
  vx : ℚ
  vy : ℚ
  life : ℚ
  size : ℕ
deriving DecidableEq, Repr

/-- Randomness oracle: `foodRnd n` is the n-th cell sampled by `placeFood`
(`Math.floor(Math.random()*GRID_W/H)` pairs); `partRnd i` is the tuple
sampled for the i-th particle of a burst. -/
structure Oracle where
  foodRnd : ℕ → Pos
  partRnd : ℕ → PSample

/-- `CELL = 14`, logical pixels per grid cell (line 13). -/
def CELL : ℚ := 14

/-- `GRID_W = 40` grid columns (line 14). -/
def GRID_W : Int := 40

/-- `GRID_H = 28` grid rows (line 15). -/
def GRID_H : Int := 28

/-- `STEPS_PER_SECOND = 7.5` (line 37). -/
def STEPS_PER_SECOND : ℚ := 15 / 2

/-- The four unit direction vectors (lines 42-47). -/
def DIRS.left : Pos := ⟨-1, 0⟩

def DIRS.right : Pos := ⟨1, 0⟩

def DIRS.up : Pos := ⟨0, -1⟩

def DIRS.down : Pos := ⟨0, 1⟩

/-- The mutable game state of src/script.js (lines 30-60): phase flags,
score, snake body (head is the LAST element), previous-snake snapshot,
current and queued direction, growth counter, food, interpolation
progress, particle list.  The write-only `running` flag is omitted. -/
structure GameState where
  playing : Bool
  gameOver : Bool
  score : ℕ
  snake : List Pos
  prevSnake : List Pos
  dir : Pos
  nextDir : Pos
  grow : ℕ
  food : Option Pos
  stepProgress : ℚ
  particles : List Particle
deriving DecidableEq, Repr

/-- `spawnEatParticles(gridX, gridY, n)` (lines 142-157): pushes `n`
particles at the centre of the given cell, with sampled velocities,
lifetimes and sizes. -/
def spawnEatParticles (gridX gridY : Int) (n : ℕ) (rnd : ℕ → PSample)
    (ps : List Particle) : List Particle :=
  ps ++ (List.range n).map (fun i =>
    let r := rnd i
    { x := ((gridX : ℚ) + 1/2) * CELL
      y := ((gridY : ℚ) + 1/2) * CELL
      vx := r.vx, vy := r.vy, life := r.life, size := r.size })

/-- The body of `placeFood`'s retry loop (lines 85-95), with `fuel`
standing for the remaining tries out of 1000 and `tries` the index of the
next sample in the oracle stream. -/
def placeFoodAux (snake : List Pos) (rnd : ℕ → Pos) : ℕ → ℕ → Pos
  | _, 0 => ⟨1, 1⟩
  | tries, fuel + 1 =>
    let c := rnd tries
    if snake.any (fun s => s.x == c.x && s.y == c.y) then
      placeFoodAux snake rnd (tries + 1) fuel
    else c

/-- `placeFood()` (lines 83-98): up to 1000 rejection-sampling tries for a
cell free of the snake, else the fallback cell (1,1).  Returns the placed
cell (the source assigns it to `food`). -/
def placeFood (snake : List Pos) (rnd : ℕ → Pos) : Pos :=
  placeFoodAux snake rnd 0 1000

/-- `triggerGameOver()` (lines 136-140): sets the phase to game over and
emits a 36-particle death burst at the current head cell
(`spawnDeathParticles` is `spawnEatParticles`, line 158-160).  On an empty
snake the source would fault reading the head; that case is unreachable
and modelled as emitting no burst. -/
def triggerGameOver (o : Oracle) (st : GameState) : GameState :=
  let st1 := { st with gameOver := true, playing := false }
  match st1.snake.getLast? with
  | none => st1
  | some h => { st1 with particles := spawnEatParticles h.x h.y 36 o.partRnd st1.particles }

/-- Whether the candidate head lands on the food (lines 127-128:
`food && newHead.x === food.x && newHead.y === food.y`). -/
def eatsFood (food : Option Pos) (newHead : Pos) : Bool :=
  match food with
  | some f => newHead.x == f.x && newHead.y == f.y
  | none => false

/-- `stepSnake()` (lines 100-134): snapshot the snake, compute the new
head from the current direction, end the game on wall or self collision,
otherwise advance (append head; consume growth or drop tail) and handle
eating (score +10, growth +2, 18-particle burst at the food cell,
re-place food over the post-step snake).  On an empty snake the source
would index `undefined`; that unreachable case is modelled as only taking
the snapshot. -/
def stepSnake (o : Oracle) (st : GameState) : GameState :=
  match st.snake.getLast? with
  | none => { st with prevSnake := st.snake }
  | some head =>
    let newHead : Pos := ⟨head.x + st.dir.x, head.y + st.dir.y⟩
    if newHead.x < 0 ∨ GRID_W ≤ newHead.x ∨ newHead.y < 0 ∨ GRID_H ≤ newHead.y then
      triggerGameOver o { st with prevSnake := st.snake }
    else if st.snake.any (fun s => s.x == newHead.x && s.y == newHead.y) then
      triggerGameOver o { st with prevSnake := st.snake }
    else
      let snake1 := st.snake ++ [newHead]
      let snake2 := if 0 < st.grow then snake1 else snake1.tail
      let grow2 := if 0 < st.grow then st.grow - 1 else st.grow
      if eatsFood st.food newHead then
        let snakeSt := { st with
          prevSnake := st.snake, snake := snake2, grow := grow2 + 2,
          score := st.score + 10,
          particles := spawnEatParticles newHead.x newHead.y 18 o.partRnd st.particles }
        { snakeSt with food := some (placeFood snakeSt.snake o.foodRnd) }
      else
        { st with prevSnake := st.snake, snake := snake2, grow := grow2 }

/-- One driver-issued simulation step: the main loop only invokes
`stepSnake` while `playing` holds (guard at line 314, `if (!playing)
break`), so a step issued in any other phase leaves the state unchanged. -/
def advanceStep (o : Oracle) (st : GameState) : GameState :=
  if st.playing then stepSnake o st else st

/-- `startNewGame()` (lines 62-81): reset score and phase, build the
centred 4-segment snake moving right, clear growth and interpolation
progress, place food.  Particles are not cleared. -/
def startNewGame (o : Oracle) (st : GameState) : GameState :=
  let cx : Int := GRID_W / 2
  let cy : Int := GRID_H / 2
  let snake0 : List Pos := [⟨cx - 3, cy⟩, ⟨cx - 2, cy⟩, ⟨cx - 1, cy⟩, ⟨cx, cy⟩]
  { st with
    score := 0, gameOver := false, playing := true,
    snake := snake0, prevSnake := snake0,
    dir := DIRS.right, nextDir := DIRS.right,
    grow := 0, stepProgress := 0,
    food := some (placeFood snake0 o.foodRnd) }

/-- `queueDirection(d)` (lines 180-186): reject `d` when it cancels the
current or the already-queued direction, else overwrite the queued one. -/
def queueDirection (d : Pos) (st : GameState) : GameState :=
  if (d.x + st.dir.x = 0 ∧ d.y + st.dir.y = 0) ∨
     (d.x + st.nextDir.x = 0 ∧ d.y + st.nextDir.y = 0) then st
  else { st with nextDir := d }

/-- The debug `stop()` helper (line 363): `playing = false; gameOver = true`. -/
def stop (st : GameState) : GameState :=
  { st with playing := false, gameOver := true }

/-- The catch-up loop of `loop` (lines 313-316): issue up to `n` steps,
stopping as soon as the phase leaves Playing. -/
def doSteps (o : Oracle) : ℕ → GameState → GameState
  | 0, st => st
  | n + 1, st => if st.playing then doSteps o n (stepSnake o st) else st

/-- One particle-update of the integration loop body (lines 322-334):
lifetime decrement with removal at ≤ 0, then gravity on the vertical
velocity, position integration by the updated velocity, and multiplicative
drag 0.98 on both velocity components. -/
def integrateParticle (dt : ℚ) (p : Particle) : Option Particle :=
  let life1 := p.life - dt
  if life1 ≤ 0 then none
  else
    let vy1 := p.vy + 200 * dt * (6/10)
    let x1 := p.x + p.vx * dt
    let y1 := p.y + vy1 * dt
    some { x := x1, y := y1, vx := p.vx * (98/100), vy := vy1 * (98/100),
           life := life1, size := p.size }

/-- The particle integration pass of `loop` (lines 321-335): the backwards
iteration with `splice` updates each particle independently and keeps the
survivors in order. -/
def integrateParticles (dt : ℚ) (ps : List Particle) : List Particle :=
  ps.filterMap (integrateParticle dt)

/-- Repeated integration passes, one per frame, with the given elapsed
times. -/
def integrateN (dts : List ℚ) (ps : List Particle) : List Particle :=
  dts.foldl (fun acc d => integrateParticles d acc) ps

/-- One frame of `loop(now)` (lines 301-339): clamp the elapsed seconds to
0.1, and while playing commit the queued direction (guarded by
`!gameOver`), accumulate progress, issue the due steps and keep the
fractional remainder; finally integrate the particles.  Rendering is
omitted (it reads state only). -/
def loopFrame (o : Oracle) (dtRaw : ℚ) (st : GameState) : GameState :=
  let dt := if dtRaw ≤ 1/10 then dtRaw else 1/10
  let st1 :=
    if st.playing then
      let stA := if !st.gameOver then { st with dir := st.nextDir } else st
      let stB := { stA with stepProgress := stA.stepProgress + dt * STEPS_PER_SECOND }
      if 1 ≤ stB.stepProgress then
        let stepsToDo : ℕ := (⌊stB.stepProgress⌋).toNat
        doSteps o stepsToDo { stB with stepProgress := stB.stepProgress - stepsToDo }
      else stB
    else st
  { st1 with particles := integrateParticles dt st1.particles }

/-- States reachable from `startNewGame` through the operations that touch
the simulation state: driver-issued steps, whole frames, direction
queueing and the debug stop. -/
inductive Reachable : GameState → Prop
  | start (o : Oracle) (st : GameState) : Reachable (startNewGame o st)
  | step (o : Oracle) {st : GameState} : Reachable st → Reachable (advanceStep o st)
  | frame (o : Oracle) (dt : ℚ) {st : GameState} : Reachable st → Reachable (loopFrame o dt st)
  | queue (d : Pos) {st : GameState} : Reachable st → Reachable (queueDirection d st)
  | halt {st : GameState} : Reachable st → Reachable (stop st)

/-- The exact reverse of a direction vector (spec: "the exact reverse"). -/
def revDir (d : Pos) : Pos := ⟨-d.x, -d.y⟩

/-- Spec-side decomposition of the integration order: gravity first
(line 329). -/
def applyGravity (dt : ℚ) (p : Particle) : Particle :=
  { p with vy := p.vy + 200 * dt * (6/10) }

/-- Spec-side decomposition: position integration by velocity*dt
(lines 330-331). -/
def integratePos (dt : ℚ) (p : Particle) : Particle :=
  { p with x := p.x + p.vx * dt, y := p.y + p.vy * dt }

/-- Spec-side decomposition: multiplicative drag 0.98 on both velocity
components (lines 333-334). -/
def applyDrag (p : Particle) : Particle :=
  { p with vx := p.vx * (98/100), vy := p.vy * (98/100) }

/-- A concrete oracle used for instantiations: the first food sample is
(0,0) and every particle sample is the unit tuple. -/
def oracle0 : Oracle :=
  ⟨fun _ => ⟨0, 0⟩, fun _ => ⟨0, 0, 1, 1⟩⟩

/-- A concrete pre-start state (the page-load state of the script). -/
def initState : GameState :=
  ⟨false, false, 0, [], [], DIRS.right, DIRS.right, 0, none, 0, []⟩

/-- A playing state whose head sits on the right wall, about to collide. -/
def stWall : GameState :=
  ⟨true, false, 0, [⟨36, 14⟩, ⟨37, 14⟩, ⟨38, 14⟩, ⟨39, 14⟩],
   [⟨36, 14⟩, ⟨37, 14⟩, ⟨38, 14⟩, ⟨39, 14⟩],
   DIRS.right, DIRS.right, 0, some ⟨1, 1⟩, 0, []⟩

/-- A playing state with growth counter 1 about to eat the food at (5,0). -/
def stEat2 : GameState :=
  ⟨true, false, 0, [⟨1, 0⟩, ⟨2, 0⟩, ⟨3, 0⟩, ⟨4, 0⟩],
   [⟨1, 0⟩, ⟨2, 0⟩, ⟨3, 0⟩, ⟨4, 0⟩],
   DIRS.right, DIRS.right, 1, some ⟨5, 0⟩, 0, []⟩

/-- A playing state with growth counter 0 about to eat the food at (5,0). -/
def stEat0 : GameState :=
  ⟨true, false, 0, [⟨1, 0⟩, ⟨2, 0⟩, ⟨3, 0⟩, ⟨4, 0⟩],
   [⟨1, 0⟩, ⟨2, 0⟩, ⟨3, 0⟩, ⟨4, 0⟩],
   DIRS.right, DIRS.right, 0, some ⟨5, 0⟩, 0, []⟩

/-- A playing state with a queued turn and zero accumulated progress; its
`prevSnake` differs from `snake` so that any executed step is visible. -/
def stZero : GameState :=
  ⟨true, false, 0, [⟨5, 5⟩], [], DIRS.right, DIRS.up, 0, none, 0, []⟩

/-- A playing state moving and queued to the right, used to exercise the
direction-queue rule. -/
def gameQ : GameState :=
  ⟨true, false, 0, [⟨5, 5⟩], [⟨5, 5⟩], DIRS.right, DIRS.right, 0, none, 0, []⟩

/-- A concrete particle with lifetime 1 second. -/
def pEx : Particle := ⟨0, 0, 0, 0, 1, 1⟩

/-- Helper lemmas -/

theorem triggerGameOver_snake (o : Oracle) (st : GameState) :
    (triggerGameOver o st).snake = st.snake := by
  unfold triggerGameOver
  dsimp only
  split <;> rfl

theorem triggerGameOver_dir (o : Oracle) (st : GameState) :
    (triggerGameOver o st).dir = st.dir ∧ (triggerGameOver o st).nextDir = st.nextDir := by
  unfold triggerGameOver
  dsimp only
  split <;> exact ⟨rfl, rfl⟩

theorem triggerGameOver_stepProgress (o : Oracle) (st : GameState) :
    (triggerGameOver o st).stepProgress = st.stepProgress := by
  unfold triggerGameOver
  dsimp only
  split <;> rfl

theorem triggerGameOver_phase (o : Oracle) (st : GameState) :
    (triggerGameOver o st).playing = false ∧ (triggerGameOver o st).gameOver = true := by
  unfold triggerGameOver
  dsimp only
  split <;> exact ⟨rfl, rfl⟩

theorem stepSnake_dir (o : Oracle) (st : GameState) :
    (stepSnake o st).dir = st.dir ∧ (stepSnake o st).nextDir = st.nextDir := by
  unfold stepSnake
  dsimp only
  split
  · exact ⟨rfl, rfl⟩
  · split
    · exact triggerGameOver_dir o _
    · split
      · exact triggerGameOver_dir o _
      · split <;> exact ⟨rfl, rfl⟩

theorem stepSnake_stepProgress (o : Oracle) (st : GameState) :
    (stepSnake o st).stepProgress = st.stepProgress := by
  unfold stepSnake
  dsimp only
  split
  · rfl
  · split
    · exact triggerGameOver_stepProgress o _
    · split
      · exact triggerGameOver_stepProgress o _
      · split <;> rfl

theorem doSteps_dir (o : Oracle) (n : ℕ) (st : GameState) :
    (doSteps o n st).dir = st.dir := by
  induction n generalizing st with
  | zero => rfl
  | succ n ih =>
    unfold doSteps
    split
    · rw [ih, (stepSnake_dir o st).1]
    · rfl

theorem doSteps_stepProgress (o : Oracle) (n : ℕ) (st : GameState) :
    (doSteps o n st).stepProgress = st.stepProgress := by
  induction n generalizing st with
  | zero => rfl
  | succ n ih =>
    unfold doSteps
    split
    · rw [ih, stepSnake_stepProgress o st]
    · rfl

/-- Characterisation of a colliding step: on a wall or self collision the
step reduces to `triggerGameOver` over the snapshotted state. -/
theorem stepSnake_collision (o : Oracle) (st : GameState) (hd nh : Pos)
    (hl : st.snake.getLast? = some hd)
    (hnh : nh = ⟨hd.x + st.dir.x, hd.y + st.dir.y⟩)
    (hcol : (nh.x < 0 ∨ GRID_W ≤ nh.x ∨ nh.y < 0 ∨ GRID_H ≤ nh.y) ∨
            st.snake.any (fun s => s.x == nh.x && s.y == nh.y) = true) :
    stepSnake o st = triggerGameOver o { st with prevSnake := st.snake } := by
  subst hnh
  unfold stepSnake
  rw [hl]
  dsimp only
  by_cases hw : (hd.x + st.dir.x < 0 ∨ GRID_W ≤ hd.x + st.dir.x ∨
      hd.y + st.dir.y < 0 ∨ GRID_H ≤ hd.y + st.dir.y)
  · rw [if_pos hw]
  · rw [if_neg hw]
    rcases hcol with hcol | hcol
    · exact absurd hcol hw
    · simp only [hcol, if_true]

/-- Characterisation of a non-colliding step: the snake advances (growth
consumed or tail dropped) and the eat branch adds score, growth, an
18-particle burst at the food cell and a re-placed food. -/
theorem stepSnake_ok (o : Oracle) (st : GameState) (hd nh : Pos)
    (hl : st.snake.getLast? = some hd)
    (hnh : nh = ⟨hd.x + st.dir.x, hd.y + st.dir.y⟩)
    (hw : ¬(nh.x < 0 ∨ GRID_W ≤ nh.x ∨ nh.y < 0 ∨ GRID_H ≤ nh.y))
    (hs : st.snake.any (fun s => s.x == nh.x && s.y == nh.y) = false) :
    stepSnake o st =
      (if eatsFood st.food nh then
        { st with
          prevSnake := st.snake,
          snake := if 0 < st.grow then st.snake ++ [nh] else (st.snake ++ [nh]).tail,
          grow := (if 0 < st.grow then st.grow - 1 else st.grow) + 2,
          score := st.score + 10,
          particles := spawnEatParticles nh.x nh.y 18 o.partRnd st.particles,
          food := some (placeFood
            (if 0 < st.grow then st.snake ++ [nh] else (st.snake ++ [nh]).tail) o.foodRnd) }
      else
        { st with
          prevSnake := st.snake,
          snake := if 0 < st.grow then st.snake ++ [nh] else (st.snake ++ [nh]).tail,
          grow := if 0 < st.grow then st.grow - 1 else st.grow }) := by
  subst hnh
  unfold stepSnake
  rw [hl]
  dsimp only
  rw [if_neg hw]
  simp only [hs, Bool.false_eq_true, if_false]

/-- The self-collision scan of line 115 is false exactly when the
candidate head is on no segment. -/
theorem selfScan_false_iff (l : List Pos) (a : Pos) :
    (l.any (fun s => s.x == a.x && s.y == a.y) = false) ↔ a ∉ l := by
  rw [← Bool.not_eq_true, List.any_eq_true]
  constructor
  · intro h ha
    exact h ⟨a, ha, by simp⟩
  · rintro ha ⟨s, hs, hb⟩
    simp only [Bool.and_eq_true, beq_iff_eq] at hb
    exact ha (by rwa [show s = a from Pos.ext hb.1 hb.2] at hs)

/-- Full behaviour of the retry loop: either some sample with index below
the remaining fuel is the first free one and is returned, or every sample
is occupied and the fallback (1,1) is returned. -/
theorem placeFoodAux_spec (snake : List Pos) (rnd : ℕ → Pos) :
    ∀ fuel tries,
      (∃ i, tries ≤ i ∧ i < tries + fuel ∧
        placeFoodAux snake rnd tries fuel = rnd i ∧
        snake.any (fun s => s.x == (rnd i).x && s.y == (rnd i).y) = false ∧
        ∀ j, tries ≤ j → j < i →
          snake.any (fun s => s.x == (rnd j).x && s.y == (rnd j).y) = true) ∨
      (placeFoodAux snake rnd tries fuel = ⟨1, 1⟩ ∧
        ∀ j, tries ≤ j → j < tries + fuel →
          snake.any (fun s => s.x == (rnd j).x && s.y == (rnd j).y) = true) := by
  intro fuel
  induction fuel with
  | zero =>
    intro tries
    exact Or.inr ⟨rfl, fun j hj hj2 => absurd hj2 (by omega)⟩
  | succ fuel ih =>
    intro tries
    by_cases h : snake.any (fun s => s.x == (rnd tries).x && s.y == (rnd tries).y) = true
    · have hstep : placeFoodAux snake rnd tries (fuel + 1) =
          placeFoodAux snake rnd (tries + 1) fuel := by
        simp only [placeFoodAux, h, if_true]
      rcases ih (tries + 1) with ⟨i, h1, h2, h3, h4, h5⟩ | ⟨h1, h2⟩
      · refine Or.inl ⟨i, by omega, by omega, hstep ▸ h3, h4, fun j hj hji => ?_⟩
        rcases Nat.eq_or_lt_of_le hj with hj' | hj'
        · exact hj' ▸ h
        · exact h5 j hj' hji
      · refine Or.inr ⟨hstep ▸ h1, fun j hj hj2 => ?_⟩
        rcases Nat.eq_or_lt_of_le hj with hj' | hj'
        · exact hj' ▸ h
        · exact h2 j hj' (by omega)
    · rw [Bool.not_eq_true] at h
      have hstep : placeFoodAux snake rnd tries (fuel + 1) = rnd tries := by
        simp only [placeFoodAux, h, Bool.false_eq_true, if_false]
      exact Or.inl ⟨tries, le_refl _, by omega, hstep, h,
        fun j hj hji => absurd hji (by omega)⟩

/-- The snake field of a non-colliding step. -/
theorem stepSnake_ok_snake (o : Oracle) (st : GameState) (hd nh : Pos)
    (hl : st.snake.getLast? = some hd)
    (hnh : nh = ⟨hd.x + st.dir.x, hd.y + st.dir.y⟩)
    (hw : ¬(nh.x < 0 ∨ GRID_W ≤ nh.x ∨ nh.y < 0 ∨ GRID_H ≤ nh.y))
    (hs : st.snake.any (fun s => s.x == nh.x && s.y == nh.y) = false) :
    (stepSnake o st).snake =
      if 0 < st.grow then st.snake ++ [nh] else (st.snake ++ [nh]).tail := by
  rw [stepSnake_ok o st hd nh hl hnh hw hs]
  split <;> rfl

/-- A step preserves distinctness of the snake's segments. -/
theorem stepSnake_nodup (o : Oracle) (st : GameState) (h : st.snake.Nodup) :
    (stepSnake o st).snake.Nodup := by
  cases hl : st.snake.getLast? with
  | none =>
    have : (stepSnake o st).snake = st.snake := by
      unfold stepSnake
      rw [hl]
    rwa [this]
  | some hd =>
    set nh : Pos := ⟨hd.x + st.dir.x, hd.y + st.dir.y⟩ with hnh
    by_cases hw : (nh.x < 0 ∨ GRID_W ≤ nh.x ∨ nh.y < 0 ∨ GRID_H ≤ nh.y)
    · rw [stepSnake_collision o st hd nh hl hnh (Or.inl hw), triggerGameOver_snake]
      exact h
    · by_cases hs : st.snake.any (fun s => s.x == nh.x && s.y == nh.y) = true
      · rw [stepSnake_collision o st hd nh hl hnh (Or.inr hs), triggerGameOver_snake]
        exact h
      · rw [Bool.not_eq_true] at hs
        rw [stepSnake_ok_snake o st hd nh hl hnh hw hs]
        have hmem : nh ∉ st.snake := (selfScan_false_iff st.snake nh).mp hs
        have happ : (st.snake ++ [nh]).Nodup := by
          rw [List.nodup_append]
          exact ⟨h, List.nodup_singleton _, by
            intro a ha hb
            rw [List.mem_singleton] at hb
            exact hmem (hb ▸ ha)⟩
        split
        · exact happ
        · exact happ.sublist (List.tail_sublist _)

/-- A driver-issued step preserves distinctness. -/
theorem advanceStep_nodup (o : Oracle) (st : GameState) (h : st.snake.Nodup) :
    (advanceStep o st).snake.Nodup := by
  unfold advanceStep
  split
  · exact stepSnake_nodup o st h
  · exact h

/-- The catch-up loop preserves distinctness. -/
theorem doSteps_nodup (o : Oracle) (n : ℕ) (st : GameState) (h : st.snake.Nodup) :
    (doSteps o n st).snake.Nodup := by
  induction n generalizing st with
  | zero => exact h
  | succ n ih =>
    unfold doSteps
    split
    · exact ih _ (stepSnake_nodup o st h)
    · exact h

/-- A frame preserves distinctness: only the catch-up loop touches the
snake. -/
theorem loopFrame_nodup (o : Oracle) (dt : ℚ) (st : GameState) (h : st.snake.Nodup) :
    (loopFrame o dt st).snake.Nodup := by
  unfold loopFrame
  dsimp only
  repeat' split
  all_goals first | exact h | exact doSteps_nodup _ _ _ h

/-- Direction queueing does not touch the snake. -/
theorem queueDirection_snake (d : Pos) (st : GameState) :
    (queueDirection d st).snake = st.snake := by
  unfold queueDirection
  split <;> rfl

/-- A fresh game's snake has distinct segments. -/
theorem startNewGame_nodup (o : Oracle) (st : GameState) :
    (startNewGame o st).snake.Nodup := by
  show ([⟨GRID_W / 2 - 3, GRID_H / 2⟩, ⟨GRID_W / 2 - 2, GRID_H / 2⟩,
        ⟨GRID_W / 2 - 1, GRID_H / 2⟩, ⟨GRID_W / 2, GRID_H / 2⟩] : List Pos).Nodup
  decide

/-- The death burst of `triggerGameOver`: 36 particles appended at the
head cell. -/
theorem triggerGameOver_particles (o : Oracle) (st : GameState) (hd : Pos)
    (hl : st.snake.getLast? = some hd) :
    (triggerGameOver o st).particles =
      spawnEatParticles hd.x hd.y 36 o.partRnd st.particles := by
  unfold triggerGameOver
  dsimp only
  rw [hl]

theorem triggerGameOver_score (o : Oracle) (st : GameState) :
    (triggerGameOver o st).score = st.score := by
  unfold triggerGameOver
  dsimp only
  split <;> rfl

/-- The placed food cell is either free of the snake or the fallback. -/
theorem placeFood_free_or_fallback (snake : List Pos) (rnd : ℕ → Pos) :
    snake.any (fun s =>
      s.x == (placeFood snake rnd).x && s.y == (placeFood snake rnd).y) = false ∨
    placeFood snake rnd = ⟨1, 1⟩ := by
  rcases placeFoodAux_spec snake rnd 1000 0 with ⟨i, _, _, h3, h4, _⟩ | ⟨h1, _⟩
  · exact Or.inl (by rw [show placeFood snake rnd = rnd i from h3]; exact h4)
  · exact Or.inr h1

/-- Integration of the empty particle list stays empty. -/
theorem integrateN_nil (dts : List ℚ) : integrateN dts [] = [] := by
  induction dts with
  | nil => rfl
  | cons d rest ih =>
    show integrateN rest (integrateParticles d []) = []
    exact ih

/-- The once-per-frame resolution point: a committed step never changes
the direction pair. -/
theorem loopFrame_dir_commit (o : Oracle) (dt : ℚ) (st : GameState)
    (hp : st.playing = true) (hg : st.gameOver = false) :
    (loopFrame o dt st).dir = st.nextDir := by
  unfold loopFrame
  dsimp only
  rw [hp, hg]
  simp only [Bool.not_false, if_true]
  repeat' split
  all_goals first | rw [doSteps_dir] | rfl

/-- C10: the debug `stop()` sets the phase to game over and changes
nothing else: score, snake, snapshot, food, directions, growth,
interpolation progress and particles are untouched, and no death burst is
emitted. -/
theorem stop_only_sets_phase (st : GameState) :
    (stop st).playing = false ∧ (stop st).gameOver = true ∧
    (stop st).score = st.score ∧ (stop st).snake = st.snake ∧
    (stop st).prevSnake = st.prevSnake ∧ (stop st).food = st.food ∧
    (stop st).dir = st.dir ∧ (stop st).nextDir = st.nextDir ∧
    (stop st).grow = st.grow ∧ (stop st).stepProgress = st.stepProgress ∧
    (stop st).particles = st.particles :=
  ⟨rfl, rfl, rfl, rfl, rfl, rfl, rfl, rfl, rfl, rfl, rfl⟩

/-- C6: `queueDirection d` leaves the queued direction unchanged exactly
when `d` is the exact reverse of the committed direction or of the queued
one; otherwise it overwrites the queued direction and nothing else. -/
theorem queueDirection_reversal_rule (d : Pos) (st : GameState) :
    ((d = revDir st.dir ∨ d = revDir st.nextDir) → queueDirection d st = st) ∧
    (d ≠ revDir st.dir → d ≠ revDir st.nextDir →
      queueDirection d st = { st with nextDir := d }) := by
  have key : ∀ e : Pos, (d.x + e.x = 0 ∧ d.y + e.y = 0) ↔ d = revDir e := by
    intro e
    simp only [revDir, Pos.ext_iff]
    omega
  constructor
  · intro hrev
    unfold queueDirection
    rw [if_pos]
    rcases hrev with h | h
    · exact Or.inl ((key st.dir).mpr h)
    · exact Or.inr ((key st.nextDir).mpr h)
  · intro h1 h2
    unfold queueDirection
    rw [if_neg]
    rintro (hc | hc)
    · exact h1 ((key st.dir).mp hc)
    · exact h2 ((key st.nextDir).mp hc)

/-- Witness for C6 at a concrete state: a reversal of the current
direction is rejected and an orthogonal turn is queued. -/
theorem queueDirection_reversal_rule_witness :
    queueDirection DIRS.left gameQ = gameQ ∧
    queueDirection DIRS.down gameQ = { gameQ with nextDir := DIRS.down } :=
  ⟨(queueDirection_reversal_rule DIRS.left gameQ).1 (Or.inl (by decide)),
   (queueDirection_reversal_rule DIRS.down gameQ).2 (by decide) (by decide)⟩

/-- C3: in every committed state reachable from `startNewGame` through
steps, frames, direction queueing and the debug stop, the snake's segment
positions are pairwise distinct. -/
theorem snake_segments_pairwise_distinct {st : GameState} (h : Reachable st) :
    st.snake.Nodup := by
  induction h with
  | start o st0 => exact startNewGame_nodup o st0
  | step o _ ih => exact advanceStep_nodup _ _ ih
  | frame o dt _ ih => exact loopFrame_nodup _ _ _ ih
  | queue d _ ih => rw [queueDirection_snake]; exact ih
  | halt _ ih => exact ih

/-- Witness for C3 at a concrete reachable state. -/
theorem snake_segments_pairwise_distinct_witness :
    (startNewGame oracle0 initState).snake.Nodup :=
  snake_segments_pairwise_distinct (Reachable.start oracle0 initState)

/-- C8: food placement always terminates with either the first free
sample among the 1000 tries (never on the snake) or, when all 1000 samples
are occupied, the fixed fallback cell (1,1). -/
theorem placeFood_bounded_or_fallback (snake : List Pos) (rnd : ℕ → Pos) :
    (∃ i, i < 1000 ∧ placeFood snake rnd = rnd i ∧
      snake.any (fun s => s.x == (rnd i).x && s.y == (rnd i).y) = false ∧
      ∀ j, j < i → snake.any (fun s => s.x == (rnd j).x && s.y == (rnd j).y) = true) ∨
    (placeFood snake rnd = ⟨1, 1⟩ ∧
      ∀ j, j < 1000 → snake.any (fun s => s.x == (rnd j).x && s.y == (rnd j).y) = true) := by
  rcases placeFoodAux_spec snake rnd 1000 0 with ⟨i, _, h2, h3, h4, h5⟩ | ⟨h1, h2⟩
  · exact Or.inl ⟨i, by omega, h3, h4, fun j hj => h5 j (Nat.zero_le _) hj⟩
  · exact Or.inr ⟨h1, fun j hj => h2 j (Nat.zero_le _) (by omega)⟩

/-- Witness for C8 at a concrete snake and sample stream: the theorem
applies to the one-segment snake at the stream whose samples walk along
the x-axis. -/
theorem placeFood_bounded_or_fallback_witness :
    (∃ i, i < 1000 ∧ placeFood [(⟨0, 0⟩ : Pos)] (fun n => ⟨n, 0⟩) = (fun n : ℕ => (⟨n, 0⟩ : Pos)) i ∧
      ([(⟨0, 0⟩ : Pos)].any (fun s =>
        s.x == ((fun n : ℕ => (⟨n, 0⟩ : Pos)) i).x &&
        s.y == ((fun n : ℕ => (⟨n, 0⟩ : Pos)) i).y) = false) ∧
      ∀ j, j < i → ([(⟨0, 0⟩ : Pos)].any (fun s =>
        s.x == ((fun n : ℕ => (⟨n, 0⟩ : Pos)) j).x &&
        s.y == ((fun n : ℕ => (⟨n, 0⟩ : Pos)) j).y) = true)) ∨
    (placeFood [(⟨0, 0⟩ : Pos)] (fun n => ⟨n, 0⟩) = ⟨1, 1⟩ ∧
      ∀ j, j < 1000 → ([(⟨0, 0⟩ : Pos)].any (fun s =>
        s.x == ((fun n : ℕ => (⟨n, 0⟩ : Pos)) j).x &&
        s.y == ((fun n : ℕ => (⟨n, 0⟩ : Pos)) j).y) = true)) :=
  placeFood_bounded_or_fallback [(⟨0, 0⟩ : Pos)] (fun n => ⟨n, 0⟩)

/-- C1: a step whose candidate head leaves the grid or lands on a body
segment sets the phase to game over, leaves the committed snake and score
untouched, appends exactly 36 death-burst particles at the centre of the
pre-collision head cell, and every later driver-issued step is a no-op
until a new game is started. -/
theorem collision_ends_game (o : Oracle) (st : GameState) (hd nh : Pos)
    (hp : st.playing = true)
    (hl : st.snake.getLast? = some hd)
    (hnh : nh = ⟨hd.x + st.dir.x, hd.y + st.dir.y⟩)
    (hcol : (nh.x < 0 ∨ GRID_W ≤ nh.x ∨ nh.y < 0 ∨ GRID_H ≤ nh.y) ∨
            st.snake.any (fun s => s.x == nh.x && s.y == nh.y) = true) :
    (advanceStep o st).gameOver = true ∧
    (advanceStep o st).playing = false ∧
    (advanceStep o st).snake = st.snake ∧
    (advanceStep o st).score = st.score ∧
    (advanceStep o st).particles = st.particles ++
      (List.range 36).map (fun i =>
        { x := ((hd.x : ℚ) + 1/2) * CELL, y := ((hd.y : ℚ) + 1/2) * CELL,
          vx := (o.partRnd i).vx, vy := (o.partRnd i).vy,
          life := (o.partRnd i).life, size := (o.partRnd i).size }) ∧
    (∀ o' : Oracle, advanceStep o' (advanceStep o st) = advanceStep o st) := by
  have hstep : advanceStep o st = triggerGameOver o { st with prevSnake := st.snake } := by
    unfold advanceStep
    rw [hp, if_pos rfl]
    exact stepSnake_collision o st hd nh hl hnh hcol
  have hphase := triggerGameOver_phase o { st with prevSnake := st.snake }
  refine ⟨?_, ?_, ?_, ?_, ?_, ?_⟩
  · rw [hstep]; exact hphase.2
  · rw [hstep]; exact hphase.1
  · rw [hstep, triggerGameOver_snake]
  · rw [hstep, triggerGameOver_score]
  · rw [hstep, triggerGameOver_particles o { st with prevSnake := st.snake } hd hl]
    rfl
  · intro o'
    rw [hstep]
    unfold advanceStep
    rw [hphase.1]
    simp

/-- Witness for C1: driving the head through the right wall at x = 40. -/
theorem collision_ends_game_witness :
    (advanceStep oracle0 stWall).gameOver = true ∧
    (advanceStep oracle0 stWall).playing = false ∧
    (advanceStep oracle0 stWall).snake = stWall.snake ∧
    (∀ o' : Oracle, advanceStep o' (advanceStep oracle0 stWall) = advanceStep oracle0 stWall) := by
  have h := collision_ends_game oracle0 stWall ⟨39, 14⟩ ⟨40, 14⟩ rfl (by decide)
    (by decide) (Or.inl (by decide))
  exact ⟨h.1, h.2.1, h.2.2.1, h.2.2.2.2.2⟩

/-- C2 fails as stated: in this concrete playing state the growth counter
is 1; the step eats the food (the score does rise by 10) but the counter
goes from 1 to 2, an increase of 1, not 2. -/
theorem eat_growth_counterexample :
    stEat2.playing = true ∧
    stEat2.food = some ⟨5, 0⟩ ∧
    stEat2.snake.getLast? = some ⟨4, 0⟩ ∧
    stEat2.dir = DIRS.right ∧
    (advanceStep oracle0 stEat2).score = stEat2.score + 10 ∧
    stEat2.grow = 1 ∧
    (advanceStep oracle0 stEat2).grow = 2 ∧
    ¬((advanceStep oracle0 stEat2).grow = stEat2.grow + 2) := by
  decide

/-- C2 (amended): a non-colliding step onto the food raises the score by
exactly 10, sets the growth counter to its post-decrement value plus 2
(an increase of exactly 2 only when the counter was 0, else of 1), emits
exactly 18 particles at the centre of the food's prior cell, and
relocates the food to a cell free of the post-step snake unless all 1000
samples were occupied, in which case the fallback (1,1) is used. -/
theorem eat_step_effects (o : Oracle) (st : GameState) (hd nh f : Pos)
    (hp : st.playing = true)
    (hl : st.snake.getLast? = some hd)
    (hnh : nh = ⟨hd.x + st.dir.x, hd.y + st.dir.y⟩)
    (hw : ¬(nh.x < 0 ∨ GRID_W ≤ nh.x ∨ nh.y < 0 ∨ GRID_H ≤ nh.y))
    (hs : st.snake.any (fun s => s.x == nh.x && s.y == nh.y) = false)
    (hf : st.food = some f) (he : nh = f) :
    (advanceStep o st).score = st.score + 10 ∧
    (advanceStep o st).grow = (if st.grow = 0 then st.grow else st.grow - 1) + 2 ∧
    (advanceStep o st).particles = st.particles ++
      (List.range 18).map (fun i =>
        { x := ((f.x : ℚ) + 1/2) * CELL, y := ((f.y : ℚ) + 1/2) * CELL,
          vx := (o.partRnd i).vx, vy := (o.partRnd i).vy,
          life := (o.partRnd i).life, size := (o.partRnd i).size }) ∧
    (∃ c, (advanceStep o st).food = some c ∧
      ((advanceStep o st).snake.any (fun s => s.x == c.x && s.y == c.y) = false ∨
        c = ⟨1, 1⟩)) := by
  have heat : eatsFood st.food nh = true := by
    rw [hf, he]
    simp [eatsFood]
  have hstep : advanceStep o st = stepSnake o st := by
    unfold advanceStep
    rw [hp, if_pos rfl]
  rw [hstep, stepSnake_ok o st hd nh hl hnh hw hs, if_pos heat]
  refine ⟨rfl, ?_, ?_, ?_⟩
  · show (if 0 < st.grow then st.grow - 1 else st.grow) + 2 = _
    rcases Nat.eq_zero_or_pos st.grow with h0 | h0
    · simp [h0]
    · rw [if_pos h0, if_neg (Nat.pos_iff_ne_zero.mp h0)]
  · rw [he]
    rfl
  · refine ⟨placeFood
      (if 0 < st.grow then st.snake ++ [nh] else (st.snake ++ [nh]).tail) o.foodRnd,
      rfl, ?_⟩
    exact placeFood_free_or_fallback _ o.foodRnd

/-- Witness for C2 (amended) at a concrete state with growth counter 0. -/
theorem eat_step_effects_witness :
    (advanceStep oracle0 stEat0).score = stEat0.score + 10 ∧
    (advanceStep oracle0 stEat0).grow =
      (if stEat0.grow = 0 then stEat0.grow else stEat0.grow - 1) + 2 := by
  have h := eat_step_effects oracle0 stEat0 ⟨4, 0⟩ ⟨5, 0⟩ ⟨5, 0⟩ rfl (by decide)
    (by decide) (by decide) (by decide) rfl (by decide)
  exact ⟨h.1, h.2.1⟩

/-- C4: in a non-colliding driver-issued step the snake keeps its length
when the growth counter is 0 and gains one segment per step while it is
positive; the counter decreases by one per positive-counter step, is set
to 2 by an eat at counter 0, and in general becomes its truncated
decrement plus 2 on an eat. -/
theorem step_length_growth (o : Oracle) (st : GameState) (hd nh : Pos)
    (hp : st.playing = true)
    (hl : st.snake.getLast? = some hd)
    (hnh : nh = ⟨hd.x + st.dir.x, hd.y + st.dir.y⟩)
    (hw : ¬(nh.x < 0 ∨ GRID_W ≤ nh.x ∨ nh.y < 0 ∨ GRID_H ≤ nh.y))
    (hs : st.snake.any (fun s => s.x == nh.x && s.y == nh.y) = false) :
    (st.grow = 0 → (advanceStep o st).snake.length = st.snake.length) ∧
    (0 < st.grow → (advanceStep o st).snake.length = st.snake.length + 1) ∧
    (eatsFood st.food nh = false → (advanceStep o st).grow = st.grow - 1) ∧
    (eatsFood st.food nh = true → (advanceStep o st).grow = (st.grow - 1) + 2) ∧
    (st.grow = 0 → eatsFood st.food nh = true → (advanceStep o st).grow = 2) := by
  have hstep : advanceStep o st = stepSnake o st := by
    unfold advanceStep
    rw [hp, if_pos rfl]
  have hsnake : (stepSnake o st).snake =
      if 0 < st.grow then st.snake ++ [nh] else (st.snake ++ [nh]).tail :=
    stepSnake_ok_snake o st hd nh hl hnh hw hs
  have hgrow : (stepSnake o st).grow =
      (if 0 < st.grow then st.grow - 1 else st.grow) +
        (if eatsFood st.food nh then 2 else 0) := by
    rw [stepSnake_ok o st hd nh hl hnh hw hs]
    split
    · rfl
    · simp
  refine ⟨?_, ?_, ?_, ?_, ?_⟩
  · intro h0
    rw [hstep, hsnake, if_neg (by omega)]
    simp
  · intro h0
    rw [hstep, hsnake, if_pos h0]
    simp
  · intro hnoeat
    rw [hstep, hgrow, hnoeat]
    rcases Nat.eq_zero_or_pos st.grow with h | h <;> simp [h]
  · intro heat
    rw [hstep, hgrow, heat]
    rcases Nat.eq_zero_or_pos st.grow with h | h <;> simp [h]
  · intro h0 heat
    rw [hstep, hgrow, heat]
    simp [h0]

/-- Witness for C4 at a concrete state: a plain step keeps the length and
an eat at counter 0 yields counter 2. -/
theorem step_length_growth_witness :
    (stZero.grow = 0 → (advanceStep oracle0 stZero).snake.length = stZero.snake.length) ∧
    (stEat0.grow = 0 → eatsFood stEat0.food ⟨5, 0⟩ = true →
      (advanceStep oracle0 stEat0).grow = 2) :=
  ⟨(step_length_growth oracle0 stZero ⟨5, 5⟩ ⟨6, 5⟩ rfl (by decide) (by decide)
      (by decide) (by decide)).1,
   (step_length_growth oracle0 stEat0 ⟨4, 0⟩ ⟨5, 0⟩ rfl (by decide) (by decide)
      (by decide) (by decide)).2.2.2.2⟩

/-- C5 fails as stated: in this concrete playing state with a queued
upward turn, one frame elapses 0.01 s, so zero steps are committed (the
snake and the untouched snapshot are unchanged and the accumulator stays
below 1), yet the current direction has already changed from right to up
mid-interpolation. -/
theorem dir_commit_counterexample :
    stZero.playing = true ∧ stZero.gameOver = false ∧
    stZero.dir = DIRS.right ∧ stZero.nextDir = DIRS.up ∧
    (loopFrame oracle0 (1/100) stZero).snake = stZero.snake ∧
    (loopFrame oracle0 (1/100) stZero).prevSnake = stZero.prevSnake ∧
    (loopFrame oracle0 (1/100) stZero).stepProgress = 3/40 ∧
    (loopFrame oracle0 (1/100) stZero).dir = DIRS.up ∧
    ¬((loopFrame oracle0 (1/100) stZero).dir = stZero.dir) := by
  have hLF : loopFrame oracle0 (1/100) stZero =
      { stZero with dir := DIRS.up, stepProgress := 3/40 } := by
    unfold loopFrame stZero
    norm_num [STEPS_PER_SECOND, integrateParticles, DIRS.up, DIRS.right]
  refine ⟨rfl, rfl, rfl, rfl, ?_, ?_, ?_, ?_, ?_⟩
  · rw [hLF]
  · rw [hLF]
  · rw [hLF]
  · rw [hLF]
  · rw [hLF]
    decide

/-- C5 (amended): the queued direction is committed once per frame while
the phase is Playing and not game over — even on frames in which zero
steps occur, i.e. possibly mid-interpolation; a committed step itself
never changes the direction pair, so all steps of one frame use the same
committed direction, and a non-playing frame leaves the direction
unchanged. -/
theorem dir_commit_per_frame (o : Oracle) (dt : ℚ) (st : GameState) :
    ((stepSnake o st).dir = st.dir ∧ (stepSnake o st).nextDir = st.nextDir) ∧
    (st.playing = true → st.gameOver = false → (loopFrame o dt st).dir = st.nextDir) ∧
    (st.playing = false → (loopFrame o dt st).dir = st.dir) := by
  refine ⟨stepSnake_dir o st, ?_, ?_⟩
  · intro hp hg
    exact loopFrame_dir_commit o dt st hp hg
  · intro hp
    unfold loopFrame
    dsimp only
    rw [hp]
    simp

/-- Witness for C5 (amended) at a concrete playing state. -/
theorem dir_commit_per_frame_witness :
    (loopFrame oracle0 (1/100) stZero).dir = stZero.nextDir :=
  (dir_commit_per_frame oracle0 (1/100) stZero).2.1 rfl rfl

/-- C7: for a frame with non-negative elapsed time, if the interpolation
factor was in [0,1) before the frame then it is again in [0,1) after the
clamp, the accumulation and all due steps — also when zero steps occur. -/
theorem interp_factor_bounds (o : Oracle) (dtRaw : ℚ) (st : GameState)
    (hdt : 0 ≤ dtRaw) (h0 : 0 ≤ st.stepProgress) (h1 : st.stepProgress < 1) :
    0 ≤ (loopFrame o dtRaw st).stepProgress ∧
    (loopFrame o dtRaw st).stepProgress < 1 := by
  unfold loopFrame
  dsimp only
  have hdt' : (0:ℚ) ≤ (if dtRaw ≤ 1/10 then dtRaw else (1/10 : ℚ)) := by
    by_cases h : dtRaw ≤ 1/10
    · rw [if_pos h]; exact hdt
    · rw [if_neg h]; norm_num
  have hsps : (0:ℚ) ≤ STEPS_PER_SECOND := by norm_num [STEPS_PER_SECOND]
  split
  · have hA : (if !st.gameOver then { st with dir := st.nextDir } else st).stepProgress
        = st.stepProgress := by split <;> rfl
    rw [hA]
    set p1 : ℚ := st.stepProgress +
      (if dtRaw ≤ 1/10 then dtRaw else (1/10 : ℚ)) * STEPS_PER_SECOND with hp1
    have hp1nn : 0 ≤ p1 := add_nonneg h0 (mul_nonneg hdt' hsps)
    split
    · rename_i hge
      rw [doSteps_stepProgress]
      have hfl0 : (0:ℤ) ≤ ⌊p1⌋ := Int.le_floor.mpr (by exact_mod_cast hp1nn)
      have hcast : ((⌊p1⌋.toNat : ℤ) : ℚ) = ((⌊p1⌋ : ℤ) : ℚ) := by
        rw [Int.toNat_of_nonneg hfl0]
      constructor
      · show (0:ℚ) ≤ p1 - (⌊p1⌋.toNat : ℚ)
        have := Int.floor_le p1
        push_cast at hcast ⊢
        linarith
      · show p1 - ((⌊p1⌋.toNat : ℚ)) < 1
        have := Int.lt_floor_add_one p1
        push_cast at hcast ⊢
        linarith
    · rename_i hlt
      rw [not_le] at hlt
      exact ⟨hp1nn, hlt⟩
  · exact ⟨h0, h1⟩

/-- Witness for C7 at a concrete playing state and frame time 0.01 s. -/
theorem interp_factor_bounds_witness :
    0 ≤ (loopFrame oracle0 (1/100) stZero).stepProgress ∧
    (loopFrame oracle0 (1/100) stZero).stepProgress < 1 :=
  interp_factor_bounds oracle0 (1/100) stZero (by norm_num) (by norm_num [stZero])
    (by norm_num [stZero])

/-- The removal test of the integration pass: a particle dies exactly when
the elapsed time reaches its remaining lifetime. -/
theorem integrateParticle_none_iff (dt : ℚ) (p : Particle) :
    integrateParticle dt p = none ↔ p.life ≤ dt := by
  unfold integrateParticle
  dsimp only
  split
  · rename_i h
    constructor
    · intro _
      linarith [sub_nonpos.mp h]
    · intro _
      rfl
  · rename_i h
    rw [not_le] at h
    constructor
    · intro hcontra
      exact absurd hcontra (by simp)
    · intro hle
      exact absurd hle (not_le.mpr (by linarith))

/-- A surviving particle is updated by gravity, then position integration,
then drag, in that order. -/
theorem integrateParticle_surviving (dt : ℚ) (p : Particle) (h : dt < p.life) :
    integrateParticle dt p =
      some (applyDrag (integratePos dt (applyGravity dt { p with life := p.life - dt }))) := by
  unfold integrateParticle
  dsimp only
  rw [if_neg (by rw [not_le]; linarith)]
  rfl

/-- C9: a particle is removed by the integration pass exactly when the
elapsed time reaches its remaining lifetime — across frames, it is gone
exactly when the cumulative elapsed time reaches the initial lifetime —
and a surviving particle is updated by gravity on the vertical velocity,
then position integration by velocity*dt, then drag 0.98 on both velocity
components, in exactly that order. -/
theorem particle_integration_spec (p : Particle) (dt : ℚ) :
    (integrateParticle dt p = none ↔ p.life ≤ dt) ∧
    (dt < p.life →
      integrateParticle dt p =
        some (applyDrag (integratePos dt (applyGravity dt { p with life := p.life - dt })))) ∧
    (∀ dts : List ℚ, (∀ d ∈ dts, 0 ≤ d) → 0 < p.life →
      (integrateN dts [p] = [] ↔ p.life ≤ dts.sum)) := by
  refine ⟨integrateParticle_none_iff dt p, integrateParticle_surviving dt p, ?_⟩
  intro dts
  induction dts generalizing p with
  | nil =>
    intro _ hpos
    show ([p] = []) ↔ p.life ≤ (List.nil : List ℚ).sum
    constructor
    · intro hcontra
      exact absurd hcontra (by simp)
    · intro hle
      rw [List.sum_nil] at hle
      exact absurd hle (not_le.mpr hpos)
  | cons d rest ih =>
    intro hdts hpos
    have hd0 : 0 ≤ d := hdts d (List.mem_cons_self _ _)
    have hrest : ∀ x ∈ rest, 0 ≤ x := fun x hx => hdts x (List.mem_cons_of_mem _ hx)
    have hsum : 0 ≤ rest.sum := List.sum_nonneg hrest
    show integrateN rest (integrateParticles d [p]) = [] ↔ p.life ≤ (d :: rest).sum
    rw [List.sum_cons]
    by_cases h : p.life ≤ d
    · have hnone : integrateParticle d p = none := (integrateParticle_none_iff d p).mpr h
      have hdead : integrateParticles d [p] = [] := by
        simp [integrateParticles, hnone]
      rw [hdead, integrateN_nil]
      constructor
      · intro _
        linarith
      · intro _
        rfl
    · rw [not_le] at h
      have hsome := integrateParticle_surviving d p h
      have halive : integrateParticles d [p] =
          [applyDrag (integratePos d (applyGravity d { p with life := p.life - d }))] := by
        simp [integrateParticles, hsome]
      rw [halive, ih _ hrest (by dsimp [applyDrag, integratePos, applyGravity]; linarith)]
      dsimp [applyDrag, integratePos, applyGravity]
      constructor
      · intro hle
        linarith
      · intro hle
        linarith

/-- Witness for C9 at a concrete particle of lifetime 1 s: a 0.1 s pass
follows the gravity-integrate-drag order, and two passes of 0.6 s remove
the particle since 1 ≤ 1.2. -/
theorem particle_integration_spec_witness :
    integrateParticle (1/10) pEx =
      some (applyDrag (integratePos (1/10) (applyGravity (1/10) { pEx with life := pEx.life - 1/10 }))) ∧
    (integrateN [(3:ℚ)/5, 3/5] [pEx] = [] ↔ pEx.life ≤ ([(3:ℚ)/5, 3/5]).sum) :=
  ⟨(particle_integration_spec pEx (1/10)).2.1 (by norm_num [pEx]),
   (particle_integration_spec pEx (1/10)).2.2 [(3:ℚ)/5, 3/5]
     (by intro d hd; simp only [List.mem_cons, List.mem_singleton] at hd
         rcases hd with h | h | h <;> first | (rw [h]; norm_num) | cases h)
     (by norm_num [pEx])⟩

end Snake
